import Mathlib

/-!
Verification of the dataset service layer (`app/modules/dataset/services.py`).

The service layer is shallowly embedded: database tables are lists of row
records, the SQLAlchemy session is a pair of (committed, pending) database
states with an explicit log, and each service method becomes a Lean function
on that state.  Persistence repositories, the form object and the
authenticated-user provider are collaborators that live outside the reviewed
file; they are modelled from the specification's contract for them (§6, §4.3
of the spec):===
  - repository `create`/`update`/`delete_by_column` are single-row writes
    against the pending state, with commit/rollback invoked explicitly by the
    workflow, not by the repository;
  - the form object supplies validated field values via `get_dsmetadata`,
    `get_authors`, `get_anonymous_authors` and the feature-model entries;
  - the current user provides a profile (name, surname, affiliation, orcid)
    and a temporary upload folder.
Filesystem paths are modelled as lists of path components; file contents as
byte lists.
-/

namespace UvlHub

/-! ## Data model -/

/-- The three bibliographic fields of an author, as supplied by the form and
as stored on an `Author` row. -/
structure AuthorData where
  name : String
  affiliation : String
  orcid : String
deriving Repr, DecidableEq

/-- Dataset-level metadata fields (`DSMetaData` columns written by the
workflow; `publication_type` is stored via its enum `.value`, modelled as the
string itself). -/
structure DSMetaDataFields where
  title : String
  description : String
  publication_type : String
  publication_doi : String
  dataset_doi : String
  tags : String
  dataset_anonymous : Bool
deriving Repr, DecidableEq

/-- Feature-model-level metadata fields (`FMMetaData` columns). -/
structure FMMetaDataFields where
  uvl_filename : String
  title : String
  description : String
  publication_type : String
  publication_doi : String
  tags : String
  uvl_version : String
deriving Repr, DecidableEq

/-- A persisted `DSMetaData` row. -/
structure DSMetaDataRow where
  id : Nat
  fields : DSMetaDataFields
deriving Repr, DecidableEq

/-- A persisted `Author` row: it belongs either to a dataset's metadata
(`ds_meta_data_id`) or to a feature model's metadata (`fm_meta_data_id`). -/
structure AuthorRow where
  id : Nat
  data : AuthorData
  ds_meta_data_id : Option Nat
  fm_meta_data_id : Option Nat
deriving Repr, DecidableEq

/-- A persisted `DataSet` row. -/
structure DataSetRow where
  id : Nat
  user_id : Nat
  ds_meta_data_id : Nat
deriving Repr, DecidableEq

/-- A persisted `FMMetaData` row. -/
structure FMMetaDataRow where
  id : Nat
  fields : FMMetaDataFields
deriving Repr, DecidableEq

/-- A persisted `FeatureModel` row. -/
structure FeatureModelRow where
  id : Nat
  data_set_id : Nat
  fm_meta_data_id : Nat
deriving Repr, DecidableEq

/-- A persisted `Hubfile` row (name, checksum, size, owning feature model). -/
structure FileRow where
  id : Nat
  name : String
  checksum : String
  size : Nat
  feature_model_id : Nat
deriving Repr, DecidableEq

/-- Modelled from the spec: the relational store seen through the
repositories.  Rows keep insertion order (the ORM relationship order); `next_id`
is the primary-key allocator shared by all tables. -/
structure DB where
  dsmetadatas : List DSMetaDataRow
  authors : List AuthorRow
  datasets : List DataSetRow
  fmmetadatas : List FMMetaDataRow
  feature_models : List FeatureModelRow
  files : List FileRow
  next_id : Nat
deriving Repr, DecidableEq

/-- Modelled from the spec (§6, §9): the unit-of-work session.  Repository
writes act on `pending`; `commit` publishes `pending`, `rollback` restores it
from `committed`.  `log` collects the `logger.info` lines (not transactional). -/
structure Session where
  committed : DB
  pending : DB
  log : List String
deriving Repr, DecidableEq

/-- Modelled from the spec (§6): the authenticated user's profile as exposed
by the current-user provider. -/
structure Profile where
  name : String
  surname : String
  affiliation : String
  orcid : String
deriving Repr, DecidableEq

/-- Modelled from the spec (§6): the authenticated user, with the per-user
temporary upload folder (a path, as components). -/
structure User where
  id : Nat
  profile : Profile
  temp_folder : List String
deriving Repr, DecidableEq

/-- Modelled from the spec (§6): one feature-model entry of the submitted
form (`FeatureModelForm`): the uploaded filename, the metadata fields exposed
by `get_fmmetadata`, and the entry's author list (`get_authors`). -/
structure FeatureModelFormEntry where
  uvl_filename : String
  title : String
  desc : String
  publication_type : String
  publication_doi : String
  tags : String
  version : String
  authors : List AuthorData
deriving Repr, DecidableEq

/-- Modelled from the spec (§6): the submitted dataset form (`DataSetForm`),
with the dataset-level fields, the explicit author list (`get_authors`), the
anonymous author list (`get_anonymous_authors`) and the feature-model
entries. -/
structure DataSetForm where
  title : String
  desc : String
  publication_type : String
  publication_doi : String
  dataset_doi : String
  tags : String
  dataset_anonymous : Bool
  authors : List AuthorData
  anonymous_authors : List AuthorData
  feature_models : List FeatureModelFormEntry
deriving Repr, DecidableEq

/-- Modelled from the spec (§6): `form.get_dsmetadata()`, the dict of
dataset-level metadata fields submitted by the form. -/
def DataSetForm.get_dsmetadata (f : DataSetForm) : DSMetaDataFields :=
  { title := f.title
    description := f.desc
    publication_type := f.publication_type
    publication_doi := f.publication_doi
    dataset_doi := f.dataset_doi
    tags := f.tags
    dataset_anonymous := f.dataset_anonymous }

/-- Modelled from the spec (§6): `feature_model.get_fmmetadata()`. -/
def FeatureModelFormEntry.get_fmmetadata (e : FeatureModelFormEntry) : FMMetaDataFields :=
  { uvl_filename := e.uvl_filename
    title := e.title
    description := e.desc
    publication_type := e.publication_type
    publication_doi := e.publication_doi
    tags := e.tags
    uvl_version := e.version }

/-! ## SizeService.get_human_readable_size -/

/-- Python's `round` to the nearest integer with ties to even, applied to the
exact ratio `n / d` (the source computes on floats; on the inputs claimed by
the spec the float quotients are exact, so the exact-rational model agrees). -/
def pyRoundHalfEvenDiv (n d : Nat) : Nat :=
  let q := n / d
  let r := n % d
  if 2 * r < d then q
  else if d < 2 * r then q + 1
  else if q % 2 = 0 then q else q + 1

/-- `round(size / pow, 2)`, returned as the value scaled by 100. -/
def round2Div (size pow : Nat) : Nat :=
  pyRoundHalfEvenDiv (size * 100) pow

/-- Python's string interpolation of the rounded float: `scaled` is the value
times 100; renders with at least one and at most two decimal digits, as
`repr` of a float with at most two decimals does. -/
def renderPyFloat2 (scaled : Nat) : String :=
  let i := scaled / 100
  let frac := scaled % 100
  if frac = 0 then toString i ++ ".0"
  else if frac % 10 = 0 then toString i ++ "." ++ toString (frac / 10)
  else if frac < 10 then toString i ++ ".0" ++ toString frac
  else toString i ++ "." ++ toString frac

/-- `SizeService.get_human_readable_size`. -/
def get_human_readable_size (size : Nat) : String :=
  if size < 1024 then toString size ++ " bytes"
  else if size < 1024 ^ 2 then renderPyFloat2 (round2Div size 1024) ++ " KB"
  else if size < 1024 ^ 3 then renderPyFloat2 (round2Div size (1024 ^ 2)) ++ " MB"
  else renderPyFloat2 (round2Div size (1024 ^ 3)) ++ " GB"

/-! ## DataSetService attribute table (aggregate statistics) -/

/-- The attribute names bound on a `DataSetService` instance by
`DataSetService.__init__` (including `repository`, bound by the base-class
constructor). -/
def dataSetServiceInitAttrs : List String :=
  ["repository", "feature_model_repository", "author_repository",
   "dsmetadata_repository", "fmmetadata_repository",
   "dsdownloadrecord_repository", "hubfiledownloadrecord_repository",
   "hubfilerepository", "dsviewrecord_repostory", "hubfileviewrecord_repository"]

/-- Python attribute lookup on an object with the given attribute table:
returns the attribute name or raises `AttributeError`. -/
def pyGetattr (attrs : List String) (nm : String) : Except String String :=
  if nm ∈ attrs then Except.ok nm else Except.error ("AttributeError: " ++ nm)

/-- The attribute access performed by `DataSetService.count_feature_models`,
which reads `self.feature_model_service`. -/
def count_feature_models_attr_access : Except String String :=
  pyGetattr dataSetServiceInitAttrs "feature_model_service"

/-! ## get_uvlhub_doi -/

/-- Python's `os.getenv(name, default)` over an environment map. -/
def pyGetenv (env : String → Option String) (nm dflt : String) : String :=
  (env nm).getD dflt

/-- Lookup of `dataset.ds_meta_data` (the metadata row the dataset's foreign
key points at). -/
def DB.dsMetaOf (db : DB) (d : DataSetRow) : Option DSMetaDataRow :=
  db.dsmetadatas.find? (fun r => r.id = d.ds_meta_data_id)

/-- `DataSetService.get_uvlhub_doi`: composes
`http://{domain}/doi/{dataset.ds_meta_data.dataset_doi}` with the domain read
from the `DOMAIN` environment variable, defaulting to `localhost`. -/
def get_uvlhub_doi (env : String → Option String) (db : DB) (d : DataSetRow) :
    Option String :=
  (db.dsMetaOf d).map (fun m =>
    "http://" ++ pyGetenv env "DOMAIN" "localhost" ++ "/doi/" ++ m.fields.dataset_doi)

/-! ## Visit/Download tracker -/

/-- A `DSDownloadRecord` / `DSViewRecord` row, reduced to the pair the tracker
deduplicates on (dataset, client cookie). -/
structure TrackingRecord where
  dataset_id : Nat
  user_cookie : String
deriving Repr, DecidableEq

/-- Modelled from the spec (§4.3): `the_record_exists` — true when a tracking
record for that (dataset, token) pair already exists. -/
def the_record_exists (tbl : List TrackingRecord) (dsId : Nat) (cookie : String) : Bool :=
  tbl.any (fun r => r.dataset_id = dsId && r.user_cookie = cookie)

/-- Modelled from the spec (§4.3): `create_new_record` — inserts a new
tracking record; no uniqueness is enforced by this call itself. -/
def create_new_record (tbl : List TrackingRecord) (dsId : Nat) (cookie : String) :
    List TrackingRecord :=
  tbl ++ [{ dataset_id := dsId, user_cookie := cookie }]

/-- `create_cookie`, the shared body of `DSDownloadRecordService.create_cookie`
and `DSViewRecordService.create_cookie` (they differ only in which request
cookie supplies `incoming`).  `freshToken` stands for the `uuid4` value drawn
when no usable incoming cookie exists; Python's `if not user_cookie` also
treats the empty string as absent. -/
def create_cookie (incoming : Option String) (freshToken : String) (dsId : Nat)
    (tbl : List TrackingRecord) : String × List TrackingRecord :=
  let user_cookie :=
    match incoming with
    | none => freshToken
    | some c => if c = "" then freshToken else c
  if the_record_exists tbl dsId user_cookie then (user_cookie, tbl)
  else (user_cookie, create_new_record tbl dsId user_cookie)

/-! ## zip_dataset -/

/-- The dataset's upload directory `uploads/user_{userId}/dataset_{datasetId}`,
as path components. -/
def uploadsDir (user_id dataset_id : Nat) : List String :=
  ["uploads", "user_" ++ toString user_id, "dataset_" ++ toString dataset_id]

/-- Python's `s[:-4]`: drop the last four characters. -/
def pyDropLast4 (s : String) : String :=
  String.mk s.data.dropLast.dropLast.dropLast.dropLast

/-- `os.path.basename(zip_path[:-4])`: paths are component lists, the archive
filename is the last component and ends in `.zip` (four characters), so the
slice strips that suffix from the final component. -/
def zipRootName (zip_path : List String) : String :=
  pyDropLast4 (zip_path.getLastD "")

/-- The result of `DataSetService.zip_dataset`: the returned temporary
directory, the archive's path, and the archive entries as
(entry name, source file) pairs in the order they are written. -/
structure ZipResult where
  returned_dir : List String
  zip_path : List String
  entries : List (List String × List String)
deriving Repr, DecidableEq

/-- `DataSetService.zip_dataset`.  `fsFiles` is the list of files on disk (as
component paths, in `os.walk` order); `temp_dir` is the fresh directory
returned by `tempfile.mkdtemp`.  `os.walk` over a missing or empty directory
yields no files, so the archive is then empty but still created. -/
def zip_dataset (fsFiles : List (List String)) (user_id dataset_id : Nat)
    (temp_dir : List String) : ZipResult :=
  let file_path := uploadsDir user_id dataset_id
  let zip_path := temp_dir ++ ["dataset_" ++ toString dataset_id ++ ".zip"]
  let walked := fsFiles.filter (fun p => file_path.isPrefixOf p)
  let entries := walked.map (fun full_path =>
    let relative_path := full_path.drop file_path.length
    (zipRootName zip_path :: relative_path, full_path))
  { returned_dir := temp_dir, zip_path := zip_path, entries := entries }

/-! ## Repository operations (modelled from the spec, §6)

Each `create` is a single-row write against the pending state; the primary key
is drawn from `next_id`.  Commit and rollback are invoked by the workflow on
the session, never by the repository. -/

/-- `dsmetadata_repository.create(**fields)` as a pending write. -/
def DB.createDSMetaData (db : DB) (f : DSMetaDataFields) : Nat × DB :=
  (db.next_id,
   { db with dsmetadatas := db.dsmetadatas ++ [{ id := db.next_id, fields := f }],
             next_id := db.next_id + 1 })

/-- `author_repository.create(commit=False, ...)` as a pending write; exactly
one of the two foreign keys is supplied at each call site. -/
def DB.createAuthor (db : DB) (a : AuthorData) (dsRef fmRef : Option Nat) : Nat × DB :=
  (db.next_id,
   { db with authors := db.authors ++
       [{ id := db.next_id, data := a, ds_meta_data_id := dsRef, fm_meta_data_id := fmRef }],
             next_id := db.next_id + 1 })

/-- `self.create(commit=False, user_id=..., ds_meta_data_id=...)`. -/
def DB.createDataSet (db : DB) (uid mid : Nat) : Nat × DB :=
  (db.next_id,
   { db with datasets := db.datasets ++
       [{ id := db.next_id, user_id := uid, ds_meta_data_id := mid }],
             next_id := db.next_id + 1 })

/-- `fmmetadata_repository.create(commit=False, **fields)`. -/
def DB.createFMMetaData (db : DB) (f : FMMetaDataFields) : Nat × DB :=
  (db.next_id,
   { db with fmmetadatas := db.fmmetadatas ++ [{ id := db.next_id, fields := f }],
             next_id := db.next_id + 1 })

/-- `feature_model_repository.create(commit=False, data_set_id=..., fm_meta_data_id=...)`. -/
def DB.createFeatureModel (db : DB) (did mid : Nat) : Nat × DB :=
  (db.next_id,
   { db with feature_models := db.feature_models ++
       [{ id := db.next_id, data_set_id := did, fm_meta_data_id := mid }],
             next_id := db.next_id + 1 })

/-- `hubfilerepository.create(commit=False, name=..., checksum=..., size=...,
feature_model_id=...)`. -/
def DB.createFile (db : DB) (nm checksum : String) (size fmId : Nat) : Nat × DB :=
  (db.next_id,
   { db with files := db.files ++
       [{ id := db.next_id, name := nm, checksum := checksum, size := size,
          feature_model_id := fmId }],
             next_id := db.next_id + 1 })

/-- `dsmetadata_repository.update(id=..., **fields)`: overwrite the fields of
the row with that id in place. -/
def DB.updateDSMetaData (db : DB) (mid : Nat) (f : DSMetaDataFields) : DB :=
  { db with dsmetadatas := db.dsmetadatas.map (fun r =>
      if r.id = mid then { r with fields := f } else r) }

/-- `author_repository.delete_by_column(column_name="ds_meta_data_id", value=mid)`. -/
def DB.deleteAuthorsByDSMetaDataId (db : DB) (mid : Nat) : DB :=
  { db with authors := db.authors.filter (fun a => a.ds_meta_data_id ≠ some mid) }

/-- The loop `for author_data in author_list: author_repository.create(...)`:
creates one author row per entry, in submission order, with the given foreign
keys. -/
def addAuthors (dsRef fmRef : Option Nat) : List AuthorData → DB → DB
  | [], db => db
  | a :: rest, db => addAuthors dsRef fmRef rest (db.createAuthor a dsRef fmRef).2

/-! ## Files and checksums -/

/-- The filesystem seen by the workflow: a map from component paths to file
contents (byte lists). -/
def FS : Type := List String → Option (List Nat)

/-- Modelled from the spec (§4.1): the deterministic content hash computed by
the checksum utility.  The concrete MD5 algorithm is a library primitive; only
determinism in the content matters here, so the hash is modelled as a
deterministic encoding of the bytes. -/
def md5_hexdigest (content : List Nat) : String :=
  "md5-" ++ toString content

/-- `calculate_checksum_and_size`: reads the file once and returns
(hash, byte size); a missing file surfaces as an I/O error. -/
def calculate_checksum_and_size (fs : FS) (file_path : List String) :
    Except String (String × Nat) :=
  match fs file_path with
  | none => Except.error "FileNotFoundError"
  | some content => Except.ok (md5_hexdigest content, content.length)

/-! ## Author resolution -/

/-- `mainAuthor` as derived from the current user's profile: name composed as
"Surname, Name", plus affiliation and ORCID. -/
def main_author (u : User) : AuthorData :=
  { name := u.profile.surname ++ ", " ++ u.profile.name
    affiliation := u.profile.affiliation
    orcid := u.profile.orcid }

/-- The author-resolution branch that appears verbatim in both
`create_from_form` and `update_from_form`: the anonymous list when
`dataset_anonymous` is set, else the explicit co-author list when non-empty
(Python truthiness of the list), else the sole `main_author`. -/
def resolve_author_list (form : DataSetForm) (m : AuthorData) : List AuthorData :=
  if form.dataset_anonymous then form.anonymous_authors
  else if form.authors ≠ [] then form.authors
  else [m]

/-! ## create_from_form -/

/-- The per-feature-model loop of `create_from_form`: for each entry create
its `FMMetaData`, its authors, the `FeatureModel` row, then locate the
uploaded file in the user's temp folder, compute checksum and size, and create
the `File` row.  A missing upload raises out of the loop. -/
def createFMs (u : User) (fs : FS) (did : Nat) :
    List FeatureModelFormEntry → DB → Except String DB
  | [], db => Except.ok db
  | e :: rest, db =>
    let p1 := db.createFMMetaData e.get_fmmetadata
    let db2 := addAuthors none (some p1.1) e.authors p1.2
    let p3 := db2.createFeatureModel did p1.1
    match calculate_checksum_and_size fs (u.temp_folder ++ [e.uvl_filename]) with
    | Except.error msg => Except.error msg
    | Except.ok cs =>
      createFMs u fs did rest (p3.2.createFile e.uvl_filename cs.1 cs.2 p3.1).2

/-- The body of the `try` block of `create_from_form`, acting on the pending
state: create the dataset metadata, resolve and attach the author list, create
the dataset row, then process each feature-model entry in order.  Returns the
new dataset's id together with the pending state to be committed. -/
def createSteps (form : DataSetForm) (u : User) (fs : FS) (db : DB) :
    Except String (Nat × DB) :=
  let p1 := db.createDSMetaData form.get_dsmetadata
  let author_list := resolve_author_list form (main_author u)
  let db2 := addAuthors (some p1.1) none author_list p1.2
  let p3 := db2.createDataSet u.id p1.1
  match createFMs u fs p3.1 form.feature_models p3.2 with
  | Except.error e => Except.error e
  | Except.ok db4 => Except.ok (p3.1, db4)

/-- `DataSetService.create_from_form`: runs the creation steps inside
try/except — on success the session is committed once at the end; on any
exception the session is rolled back, the failure is logged, and the exception
is re-raised to the caller.  Returns the new dataset's id alongside the
post-call session. -/
def create_from_form (form : DataSetForm) (u : User) (fs : FS) (s : Session) :
    Except String Nat × Session :=
  let log0 := s.log ++ ["Creating dsmetadata..."]
  match createSteps form u fs s.pending with
  | Except.ok r =>
    (Except.ok r.1, { committed := r.2, pending := r.2, log := log0 })
  | Except.error e =>
    (Except.error e,
     { committed := s.committed, pending := s.committed,
       log := log0 ++ ["Exception creating dataset from form...: " ++ e] })

/-! ## update_from_form -/

/-- The body of the `try` block of `update_from_form`, acting on the pending
state: overwrite the dataset's metadata fields in place, delete every author
row attached to that metadata, resolve the author list afresh and attach it. -/
def updateSteps (form : DataSetForm) (u : User) (mid : Nat) (db : DB) : DB :=
  let db1 := db.updateDSMetaData mid form.get_dsmetadata
  let db2 := db1.deleteAuthorsByDSMetaDataId mid
  let author_list := resolve_author_list form (main_author u)
  addAuthors (some mid) none author_list db2

/-- `DataSetService.update_from_form`: updates metadata and replaces the
author list for `dataset.ds_meta_data`, commits, and returns the dataset's id
(the source reloads the dataset by id).  Feature models are not touched. -/
def update_from_form (form : DataSetForm) (u : User) (d : DataSetRow) (s : Session) :
    Nat × Session :=
  let db := updateSteps form u d.ds_meta_data_id s.pending
  (d.id, { committed := db, pending := db,
           log := s.log ++ ["Updating dsmetadata..."] })

/-! ## populate_form_from_dataset -/

/-- The ordered author list attached to a dataset-level metadata row, as the
ORM relationship `ds_meta_data.authors` exposes it, projected to its data. -/
def DB.dsAuthorsOf (db : DB) (mid : Nat) : List AuthorData :=
  (db.authors.filter (fun a => a.ds_meta_data_id = some mid)).map (fun a => a.data)

/-- The ordered author list attached to a feature-model metadata row. -/
def DB.fmAuthorsOf (db : DB) (mid : Nat) : List AuthorData :=
  (db.authors.filter (fun a => a.fm_meta_data_id = some mid)).map (fun a => a.data)

/-- The per-feature-model body of `populate_form_from_dataset`: rebuilds one
form entry from `fm.fm_meta_data` and its authors (`none` models the
`AttributeError` Python would raise on a dangling metadata reference). -/
def populateFM (db : DB) (fm : FeatureModelRow) : Option FeatureModelFormEntry :=
  (db.fmmetadatas.find? (fun r => r.id = fm.fm_meta_data_id)).map (fun m =>
    { uvl_filename := m.fields.uvl_filename
      title := m.fields.title
      desc := m.fields.description
      publication_type := m.fields.publication_type
      publication_doi := m.fields.publication_doi
      tags := m.fields.tags
      version := m.fields.uvl_version
      authors := db.fmAuthorsOf m.id })

/-- `DataSetService.populate_form_from_dataset`: overwrites the form's
dataset-level fields from the persisted metadata, clears and repopulates the
authors and feature-model collections in persisted order, and returns the
form.  Fields the source does not touch (the anonymous-author entries) keep
their incoming value. -/
def populate_form_from_dataset (form : DataSetForm) (db : DB) (d : DataSetRow) :
    Option DataSetForm := do
  let m ← db.dsMetaOf d
  let fms ← (db.feature_models.filter (fun fm => fm.data_set_id = d.id)).mapM
    (populateFM db)
  pure { form with
    title := m.fields.title
    desc := m.fields.description
    publication_type := m.fields.publication_type
    publication_doi := m.fields.publication_doi
    dataset_doi := m.fields.dataset_doi
    tags := m.fields.tags
    dataset_anonymous := m.fields.dataset_anonymous
    authors := db.dsAuthorsOf m.id
    feature_models := fms }

/-! ## Well-formed stores

Primary keys are allocated from `next_id`, so in any state reachable through
the repositories every stored id and foreign key is below the allocator. -/

/-- An optional foreign key bounded by the allocator. -/
def optLtNext (o : Option Nat) (n : Nat) : Bool :=
  match o with
  | none => true
  | some m => decide (m < n)

/-- Decidable well-formedness of a store: all ids and references are below
`next_id` (true of any state reached through the repositories, whose primary
keys come from the allocator). -/
def DB.wf (db : DB) : Bool :=
  db.dsmetadatas.all (fun r => r.id < db.next_id) &&
  db.authors.all (fun a => decide (a.id < db.next_id) &&
    optLtNext a.ds_meta_data_id db.next_id && optLtNext a.fm_meta_data_id db.next_id) &&
  db.datasets.all (fun d => d.id < db.next_id && d.ds_meta_data_id < db.next_id) &&
  db.fmmetadatas.all (fun r => r.id < db.next_id) &&
  db.feature_models.all (fun f => f.id < db.next_id && f.data_set_id < db.next_id &&
    f.fm_meta_data_id < db.next_id) &&
  db.files.all (fun f => f.id < db.next_id && f.feature_model_id < db.next_id)

/-- Authors owned by exactly one metadata record: the spec's data model gives
every author a dataset-level or a feature-model-level owner, never both. -/
def DB.ownersExclusive (db : DB) : Bool :=
  db.authors.all (fun a => a.ds_meta_data_id.isNone || a.fm_meta_data_id.isNone)

/-! ## Expected row shapes

The workflow allocates primary keys sequentially, so the rows a successful run
appends can be written down explicitly as a function of the starting
allocator value.  These shapes are only used to state and prove lemmas about
`createSteps`; the executable workflow above is the embedding of the source. -/

/-- The author rows created by `addAuthors` when the allocator starts at `n`. -/
def authorRows (dsRef fmRef : Option Nat) : List AuthorData → Nat → List AuthorRow
  | [], _ => []
  | a :: rest, n =>
    { id := n, data := a, ds_meta_data_id := dsRef, fm_meta_data_id := fmRef } ::
      authorRows dsRef fmRef rest (n + 1)

/-- Ids consumed by one feature-model entry: metadata, its authors, the
feature-model row and the file row. -/
def entryWeight (e : FeatureModelFormEntry) : Nat :=
  3 + e.authors.length

/-- Ids consumed by a list of feature-model entries. -/
def entriesWeight : List FeatureModelFormEntry → Nat
  | [] => 0
  | e :: rest => entryWeight e + entriesWeight rest

/-- The `FMMetaData` rows created for the entries, allocator starting at `n`. -/
def fmMetaRowsFrom : List FeatureModelFormEntry → Nat → List FMMetaDataRow
  | [], _ => []
  | e :: rest, n =>
    { id := n, fields := e.get_fmmetadata } :: fmMetaRowsFrom rest (n + entryWeight e)

/-- The `FeatureModel` rows created for the entries under dataset `did`. -/
def fmRowsFrom (did : Nat) : List FeatureModelFormEntry → Nat → List FeatureModelRow
  | [], _ => []
  | e :: rest, n =>
    { id := n + 1 + e.authors.length, data_set_id := did, fm_meta_data_id := n } ::
      fmRowsFrom did rest (n + entryWeight e)

/-- The feature-model-level author rows created for the entries. -/
def fmAuthorRowsFrom : List FeatureModelFormEntry → Nat → List AuthorRow
  | [], _ => []
  | e :: rest, n =>
    authorRows none (some n) e.authors (n + 1) ++ fmAuthorRowsFrom rest (n + entryWeight e)

/-- The `File` rows created for the entries from the uploads in `fs`. -/
def fileRowsFrom (u : User) (fs : FS) : List FeatureModelFormEntry → Nat → List FileRow
  | [], _ => []
  | e :: rest, n =>
    match fs (u.temp_folder ++ [e.uvl_filename]) with
    | none => []
    | some content =>
      { id := n + 2 + e.authors.length, name := e.uvl_filename,
        checksum := md5_hexdigest content, size := content.length,
        feature_model_id := n + 1 + e.authors.length } ::
        fileRowsFrom u fs rest (n + entryWeight e)

/-! ## Sample inputs (used by witnesses) -/

/-- A sample user profile. -/
def sampleProfile : Profile :=
  { name := "Ada", surname := "Lovelace", affiliation := "SRI", orcid := "0000-0001" }

/-- A sample authenticated user. -/
def sampleUser : User :=
  { id := 7, profile := sampleProfile, temp_folder := ["tmp", "user_7"] }

/-- A sample explicit co-author. -/
def sampleAuthorA : AuthorData :=
  { name := "Doe, John", affiliation := "US1", orcid := "0000-0002" }

/-- A second sample author. -/
def sampleAuthorB : AuthorData :=
  { name := "Roe, Jane", affiliation := "US2", orcid := "0000-0003" }

/-- A sample feature-model form entry for the upload `m.uvl`. -/
def sampleFMEntry : FeatureModelFormEntry :=
  { uvl_filename := "m.uvl", title := "fm title", desc := "fm desc",
    publication_type := "none", publication_doi := "fm-doi", tags := "fm-tags",
    version := "1.0", authors := [sampleAuthorB] }

/-- A sample non-anonymous submission with no explicit co-authors. -/
def sampleForm : DataSetForm :=
  { title := "T", desc := "D", publication_type := "article",
    publication_doi := "pub-doi", dataset_doi := "ds-doi", tags := "tag1",
    dataset_anonymous := false, authors := [], anonymous_authors := [],
    feature_models := [sampleFMEntry] }

/-- A sample submission with explicit co-authors. -/
def sampleFormAuthors : DataSetForm :=
  { sampleForm with authors := [sampleAuthorA, sampleAuthorB] }

/-- The empty store. -/
def emptyDB : DB :=
  { dsmetadatas := [], authors := [], datasets := [], fmmetadatas := [],
    feature_models := [], files := [], next_id := 0 }

/-- A fresh session over the empty store. -/
def emptySession : Session :=
  { committed := emptyDB, pending := emptyDB, log := [] }

/-- A temp upload area holding exactly `tmp/user_7/m.uvl`. -/
def sampleFS : FS :=
  fun p => if p = ["tmp", "user_7", "m.uvl"] then some [1, 2, 3] else none

/-- An empty filesystem: every read fails. -/
def emptyFS : FS := fun _ => none

/-- A sample environment defining only `DOMAIN`. -/
def sampleEnv : String → Option String :=
  fun nm => if nm = "DOMAIN" then some "uvlhub.io" else none

/-- A one-dataset store for the DOI and populate witnesses. -/
def sampleDB : DB :=
  { dsmetadatas := [{ id := 0, fields := sampleForm.get_dsmetadata }],
    authors := [], datasets := [{ id := 1, user_id := 7, ds_meta_data_id := 0 }],
    fmmetadatas := [], feature_models := [], files := [], next_id := 2 }

/-- A store with one dataset, one feature model, a dataset-level author and a
feature-model-level author, for the update witnesses. -/
def sampleRichDB : DB :=
  { dsmetadatas := [{ id := 0, fields := sampleForm.get_dsmetadata }],
    authors :=
      [{ id := 5, data := sampleAuthorA, ds_meta_data_id := some 0,
         fm_meta_data_id := none },
       { id := 6, data := sampleAuthorB, ds_meta_data_id := none,
         fm_meta_data_id := some 2 }],
    datasets := [{ id := 1, user_id := 7, ds_meta_data_id := 0 }],
    fmmetadatas := [{ id := 2, fields := sampleFMEntry.get_fmmetadata }],
    feature_models := [{ id := 3, data_set_id := 1, fm_meta_data_id := 2 }],
    files := [{ id := 4, name := "m.uvl", checksum := "c", size := 3,
                feature_model_id := 3 }],
    next_id := 7 }

/-- A clean session over `sampleRichDB`. -/
def sampleRichSession : Session :=
  { committed := sampleRichDB, pending := sampleRichDB, log := [] }

/-! ## C7 — size formatting -/

/-- C7: `get_human_readable_size` uses exclusive 1024-based thresholds with
two-decimal rounding: 1023 bytes stays in bytes, 1024 is "1.0 KB", 1536 is
"1.5 KB", 1024² is "1.0 MB" and 1024³ is "1.0 GB"; the probes just below the
MB and GB thresholds still render in the smaller unit. -/
theorem get_human_readable_size_boundaries :
    get_human_readable_size 1023 = "1023 bytes" ∧
    get_human_readable_size 1024 = "1.0 KB" ∧
    get_human_readable_size 1536 = "1.5 KB" ∧
    get_human_readable_size (1024 ^ 2) = "1.0 MB" ∧
    get_human_readable_size (1024 ^ 3) = "1.0 GB" ∧
    get_human_readable_size (1024 ^ 2 - 1) = "1024.0 KB" ∧
    get_human_readable_size (1024 ^ 3 - 1) = "1024.0 MB" ∧
    get_human_readable_size 1075 = "1.05 KB" := by
  decide

/-! ## C9 — count_feature_models -/

/-- C9: `DataSetService.count_feature_models` reads
`self.feature_model_service`, but `__init__` binds
`self.feature_model_repository` (and never `feature_model_service`), so the
method raises `AttributeError` instead of returning a count. -/
theorem count_feature_models_attribute_error :
    count_feature_models_attr_access =
      Except.error "AttributeError: feature_model_service" ∧
    "feature_model_service" ∉ dataSetServiceInitAttrs ∧
    "feature_model_repository" ∈ dataSetServiceInitAttrs :=
  ⟨rfl, by decide, by decide⟩

/-! ## C10 — get_uvlhub_doi -/

/-- C10: `get_uvlhub_doi` returns exactly
`http://{domain}/doi/{dataset.ds_meta_data.dataset_doi}` where the domain is
`os.getenv("DOMAIN", "localhost")`; with no environment configured the URL is
`http://localhost/doi/{doi}`. -/
theorem get_uvlhub_doi_spec (env : String → Option String) (db : DB)
    (d : DataSetRow) (m : DSMetaDataRow) (h : db.dsMetaOf d = some m) :
    get_uvlhub_doi env db d =
      some ("http://" ++ ((env "DOMAIN").getD "localhost") ++ "/doi/" ++
        m.fields.dataset_doi) ∧
    get_uvlhub_doi (fun _ => none) db d =
      some ("http://localhost/doi/" ++ m.fields.dataset_doi) := by
  unfold get_uvlhub_doi pyGetenv
  rw [h]
  exact ⟨rfl, rfl⟩

/-- Witness for C10 at a concrete store and environment. -/
theorem get_uvlhub_doi_spec_witness :
    get_uvlhub_doi sampleEnv sampleDB { id := 1, user_id := 7, ds_meta_data_id := 0 } =
      some "http://uvlhub.io/doi/ds-doi" ∧
    get_uvlhub_doi (fun _ => none) sampleDB
        { id := 1, user_id := 7, ds_meta_data_id := 0 } =
      some "http://localhost/doi/ds-doi" := by
  have h := get_uvlhub_doi_spec sampleEnv sampleDB
    { id := 1, user_id := 7, ds_meta_data_id := 0 }
    { id := 0, fields := sampleForm.get_dsmetadata } (by decide)
  exact ⟨by simpa [sampleEnv] using h.1, by simpa using h.2⟩

/-! ## C6 — zip_dataset -/

/-- Dropping four trailing characters undoes appending four characters. -/
theorem dropLast_append_four (l : List Char) (a b c d : Char) :
    (l ++ [a, b, c, d]).dropLast.dropLast.dropLast.dropLast = l := by
  have h1 : l ++ [a, b, c, d] = (l ++ [a, b, c]) ++ [d] := by simp
  have h2 : l ++ [a, b, c] = (l ++ [a, b]) ++ [c] := by simp
  have h3 : l ++ [a, b] = (l ++ [a]) ++ [b] := by simp
  rw [h1, List.dropLast_concat, h2, List.dropLast_concat, h3, List.dropLast_concat,
    List.dropLast_concat]

/-- `s[:-4]` strips a trailing `.zip`. -/
theorem pyDropLast4_zip (s : String) : pyDropLast4 (s ++ ".zip") = s := by
  unfold pyDropLast4
  have h : (s ++ ".zip").data = s.data ++ ['.', 'z', 'i', 'p'] := by
    simp [String.data_append]
  rw [h, dropLast_append_four]

/-- The archive-root folder computed from the archive path is the archive name
without its `.zip` suffix. -/
theorem zipRootName_eq (t : List String) (nm : String) :
    zipRootName (t ++ [nm ++ ".zip"]) = nm := by
  unfold zipRootName
  rw [List.getLastD_concat, pyDropLast4_zip]

/-- C6: `zip_dataset` returns the fresh temporary directory unchanged (it
never deletes it), places a single archive `dataset_{id}.zip` there, archives
exactly the files under `uploads/user_{uid}/dataset_{id}/` with each entry
rooted at the folder `dataset_{id}/` and its relative path preserved, and an
empty or missing source directory yields an empty archive instead of a
failure. -/
theorem zip_dataset_spec (fsFiles : List (List String)) (uid did : Nat)
    (temp_dir : List String) :
    (zip_dataset fsFiles uid did temp_dir).returned_dir = temp_dir ∧
    (zip_dataset fsFiles uid did temp_dir).zip_path =
      temp_dir ++ ["dataset_" ++ toString did ++ ".zip"] ∧
    (zip_dataset fsFiles uid did temp_dir).entries =
      (fsFiles.filter (fun p => (uploadsDir uid did).isPrefixOf p)).map
        (fun p => (("dataset_" ++ toString did) :: p.drop 3, p)) ∧
    (fsFiles.filter (fun p => (uploadsDir uid did).isPrefixOf p) = [] →
      (zip_dataset fsFiles uid did temp_dir).entries = []) := by
  refine ⟨rfl, rfl, ?_, ?_⟩
  · simp [zip_dataset, zipRootName_eq, uploadsDir]
  · intro h
    simp [zip_dataset, h]

/-- Witness for C6: a store with one file inside the dataset directory and one
outside it, and the empty-directory case. -/
theorem zip_dataset_spec_witness :
    (zip_dataset [["uploads", "user_7", "dataset_1", "m.uvl"], ["other", "x"]]
        7 1 ["tmpdir"]).entries =
      [(["dataset_1", "m.uvl"], ["uploads", "user_7", "dataset_1", "m.uvl"])] ∧
    (zip_dataset [] 7 1 ["tmpdir"]).entries = [] := by
  have h1 := zip_dataset_spec
    [["uploads", "user_7", "dataset_1", "m.uvl"], ["other", "x"]] 7 1 ["tmpdir"]
  have h2 := zip_dataset_spec [] 7 1 ["tmpdir"]
  refine ⟨?_, h2.2.2.2 (by decide)⟩
  rw [h1.2.2.1]
  decide

/-! ## C4 — tracker idempotence -/

/-- C4: per-token idempotence of `create_cookie` (the shared body of the
download- and view-record services).  With the same non-empty incoming token
twice, both calls return that token, the second call adds nothing, and at most
one record is created in total.  With no incoming token and two distinct fresh
UUIDs not yet recorded, the two calls return the two distinct tokens and
create exactly one record per token. -/
theorem create_cookie_idempotent (tbl : List TrackingRecord) (dsId : Nat)
    (t f1 f2 g1 g2 : String) (ht : t ≠ "") (hf : f1 ≠ f2)
    (h1 : the_record_exists tbl dsId f1 = false)
    (h2 : the_record_exists tbl dsId f2 = false) :
    ((create_cookie (some t) g1 dsId tbl).1 = t ∧
     (create_cookie (some t) g2 dsId (create_cookie (some t) g1 dsId tbl).2).1 = t ∧
     (create_cookie (some t) g2 dsId (create_cookie (some t) g1 dsId tbl).2).2 =
       (create_cookie (some t) g1 dsId tbl).2 ∧
     (create_cookie (some t) g1 dsId tbl).2.length ≤ tbl.length + 1) ∧
    ((create_cookie none f1 dsId tbl).1 = f1 ∧
     (create_cookie none f2 dsId (create_cookie none f1 dsId tbl).2).1 = f2 ∧
     (create_cookie none f2 dsId (create_cookie none f1 dsId tbl).2).2 =
       tbl ++ [{ dataset_id := dsId, user_cookie := f1 },
               { dataset_id := dsId, user_cookie := f2 }]) := by
  constructor
  · have hexists : ∀ tb : List TrackingRecord,
        the_record_exists (tb ++ [{ dataset_id := dsId, user_cookie := t }]) dsId t = true := by
      intro tb
      simp [the_record_exists]
    unfold create_cookie
    simp only [ht, if_false]
    by_cases hc : the_record_exists tbl dsId t
    · simp [hc]
    · simp only [Bool.not_eq_true] at hc
      simp [hc, hexists, create_new_record]
  · unfold create_cookie
    have hx2 : the_record_exists (tbl ++ [{ dataset_id := dsId, user_cookie := f1 }])
        dsId f2 = false := by
      have hh : tbl ++ [{ dataset_id := dsId, user_cookie := f1 : TrackingRecord }] =
          create_new_record tbl dsId f1 := rfl
      rw [hh]
      unfold the_record_exists create_new_record
      rw [List.any_append]
      unfold the_record_exists at h2
      rw [h2]
      simp [hf]
    simp [create_new_record, h1, hx2]

/-- Witness for C4 on a concrete table, token and two fresh UUIDs. -/
theorem create_cookie_idempotent_witness :
    (create_cookie (some "tok") "g1" 3 []).1 = "tok" ∧
    (create_cookie (some "tok") "g2" 3 (create_cookie (some "tok") "g1" 3 []).2).2 =
      (create_cookie (some "tok") "g1" 3 []).2 ∧
    (create_cookie none "u2" 3 (create_cookie none "u1" 3 []).2).2 =
      [{ dataset_id := 3, user_cookie := "u1" }, { dataset_id := 3, user_cookie := "u2" }] := by
  have h := create_cookie_idempotent [] 3 "tok" "u1" "u2" "g1" "g2"
    (by decide) (by decide) (by decide) (by decide)
  refine ⟨h.1.1, h.1.2.2.1, ?_⟩
  rw [h.2.2.2]
  rfl

/-! ## C1 — atomicity of create_from_form -/

/-- C1: if any step of `create_from_form` raises, the in-progress transaction
is rolled back — both the visible (committed) and pending states after the
call equal the pre-call committed state, so no metadata, author,
feature-model or file row from the call is observable — the failure is
logged, and the original exception from the failing step is re-raised
unchanged to the caller. -/
theorem create_from_form_rollback (form : DataSetForm) (u : User) (fs : FS)
    (s : Session) (e : String)
    (h : (create_from_form form u fs s).1 = Except.error e) :
    (create_from_form form u fs s).2.committed = s.committed ∧
    (create_from_form form u fs s).2.pending = s.committed ∧
    createSteps form u fs s.pending = Except.error e ∧
    (create_from_form form u fs s).2.log =
      s.log ++ ["Creating dsmetadata...",
        "Exception creating dataset from form...: " ++ e] := by
  cases hc : createSteps form u fs s.pending with
  | ok r =>
    have h1 : (create_from_form form u fs s).1 = Except.ok r.1 := by
      simp [create_from_form, hc]
    rw [h1] at h
    simp at h
  | error e2 =>
    have h1 : (create_from_form form u fs s).1 = Except.error e2 := by
      simp [create_from_form, hc]
    rw [h1] at h
    injection h with he
    subst he
    exact ⟨by simp [create_from_form, hc], by simp [create_from_form, hc], rfl,
      by simp [create_from_form, hc]⟩

/-- Witness for C1: a submission whose upload is missing from the temp area
fails at the checksum step; the session stays empty and the error surfaces. -/
theorem create_from_form_rollback_witness :
    (create_from_form sampleForm sampleUser emptyFS emptySession).1 =
      Except.error "FileNotFoundError" ∧
    (create_from_form sampleForm sampleUser emptyFS emptySession).2.committed = emptyDB ∧
    (create_from_form sampleForm sampleUser emptyFS emptySession).2.pending = emptyDB := by
  have h := create_from_form_rollback sampleForm sampleUser emptyFS emptySession
    "FileNotFoundError" rfl
  exact ⟨rfl, h.1, h.2.1⟩

/-! ## Lemmas about the write primitives -/

/-- `addAuthors` appends exactly the expected author rows. -/
theorem addAuthors_authors (dsRef fmRef : Option Nat) (l : List AuthorData) (db : DB) :
    (addAuthors dsRef fmRef l db).authors =
      db.authors ++ authorRows dsRef fmRef l db.next_id := by
  induction l generalizing db with
  | nil => simp [addAuthors, authorRows]
  | cons a rest ih =>
    simp [addAuthors, authorRows, DB.createAuthor, ih]

/-- `addAuthors` leaves the metadata table untouched. -/
theorem addAuthors_dsmetadatas (dsRef fmRef : Option Nat) (l : List AuthorData) (db : DB) :
    (addAuthors dsRef fmRef l db).dsmetadatas = db.dsmetadatas := by
  induction l generalizing db with
  | nil => rfl
  | cons a rest ih => simp [addAuthors, DB.createAuthor, ih]

/-- `addAuthors` leaves the dataset table untouched. -/
theorem addAuthors_datasets (dsRef fmRef : Option Nat) (l : List AuthorData) (db : DB) :
    (addAuthors dsRef fmRef l db).datasets = db.datasets := by
  induction l generalizing db with
  | nil => rfl
  | cons a rest ih => simp [addAuthors, DB.createAuthor, ih]

/-- `addAuthors` leaves the feature-model metadata table untouched. -/
theorem addAuthors_fmmetadatas (dsRef fmRef : Option Nat) (l : List AuthorData) (db : DB) :
    (addAuthors dsRef fmRef l db).fmmetadatas = db.fmmetadatas := by
  induction l generalizing db with
  | nil => rfl
  | cons a rest ih => simp [addAuthors, DB.createAuthor, ih]

/-- `addAuthors` leaves the feature-model table untouched. -/
theorem addAuthors_feature_models (dsRef fmRef : Option Nat) (l : List AuthorData) (db : DB) :
    (addAuthors dsRef fmRef l db).feature_models = db.feature_models := by
  induction l generalizing db with
  | nil => rfl
  | cons a rest ih => simp [addAuthors, DB.createAuthor, ih]

/-- `addAuthors` leaves the file table untouched. -/
theorem addAuthors_files (dsRef fmRef : Option Nat) (l : List AuthorData) (db : DB) :
    (addAuthors dsRef fmRef l db).files = db.files := by
  induction l generalizing db with
  | nil => rfl
  | cons a rest ih => simp [addAuthors, DB.createAuthor, ih]

/-- `addAuthors` advances the allocator by the list length. -/
theorem addAuthors_next_id (dsRef fmRef : Option Nat) (l : List AuthorData) (db : DB) :
    (addAuthors dsRef fmRef l db).next_id = db.next_id + l.length := by
  induction l generalizing db with
  | nil => rfl
  | cons a rest ih => simp [addAuthors, DB.createAuthor, ih]; omega

/-- The created rows carry exactly the submitted author data, in order. -/
theorem authorRows_map_data (dsRef fmRef : Option Nat) (l : List AuthorData) (n : Nat) :
    (authorRows dsRef fmRef l n).map (fun a => a.data) = l := by
  induction l generalizing n with
  | nil => rfl
  | cons a rest ih => simp [authorRows, ih]

/-- Rows created for a dataset metadata record all pass its owner filter. -/
theorem authorRows_filter_ds_eq (mid : Nat) (fmRef : Option Nat)
    (l : List AuthorData) (n : Nat) :
    (authorRows (some mid) fmRef l n).filter (fun a => a.ds_meta_data_id = some mid) =
      authorRows (some mid) fmRef l n := by
  induction l generalizing n with
  | nil => rfl
  | cons a rest ih => simp [authorRows, ih]

/-- Rows created with a different dataset owner never pass the filter. -/
theorem authorRows_filter_ds_ne (dsRef fmRef : Option Nat) (mid : Nat)
    (l : List AuthorData) (n : Nat) (h : dsRef ≠ some mid) :
    (authorRows dsRef fmRef l n).filter (fun a => a.ds_meta_data_id = some mid) = [] := by
  induction l generalizing n with
  | nil => rfl
  | cons a rest ih => simp [authorRows, ih, h]

/-- Rows created for a feature-model metadata record all pass its owner filter. -/
theorem authorRows_filter_fm_eq (mid : Nat) (dsRef : Option Nat)
    (l : List AuthorData) (n : Nat) :
    (authorRows dsRef (some mid) l n).filter (fun a => a.fm_meta_data_id = some mid) =
      authorRows dsRef (some mid) l n := by
  induction l generalizing n with
  | nil => rfl
  | cons a rest ih => simp [authorRows, ih]

/-- Rows created with a different feature-model owner never pass the filter. -/
theorem authorRows_filter_fm_ne (dsRef fmRef : Option Nat) (mid : Nat)
    (l : List AuthorData) (n : Nat) (h : fmRef ≠ some mid) :
    (authorRows dsRef fmRef l n).filter (fun a => a.fm_meta_data_id = some mid) = [] := by
  induction l generalizing n with
  | nil => rfl
  | cons a rest ih => simp [authorRows, ih, h]

/-- Dataset-level author rows have no feature-model owner. -/
theorem authorRows_filter_fm_isSome (dsRef : Option Nat) (l : List AuthorData) (n : Nat) :
    (authorRows dsRef none l n).filter (fun a => a.fm_meta_data_id.isSome) = [] := by
  induction l generalizing n with
  | nil => rfl
  | cons a rest ih => simp [authorRows, ih]

/-- Deleting the rows owned by a metadata record leaves nothing that still
passes its owner filter. -/
theorem filter_ne_filter_eq (l : List AuthorRow) (mid : Nat) :
    ((l.filter (fun a => a.ds_meta_data_id ≠ some mid)).filter
      (fun a => a.ds_meta_data_id = some mid)) = [] := by
  induction l with
  | nil => rfl
  | cons a rest ih =>
    by_cases h : a.ds_meta_data_id = some mid <;> simp [List.filter_cons, h, ih]

/-- An inner filter that is implied by the outer one can be dropped. -/
theorem filter_filter_of_imp {α : Type} (p q : α → Bool) (l : List α)
    (h : ∀ a ∈ l, q a = true → p a = true) :
    (l.filter p).filter q = l.filter q := by
  induction l with
  | nil => rfl
  | cons a rest ih =>
    have ih' := ih (fun x hx hq => h x (List.mem_cons_of_mem a hx) hq)
    rw [List.filter_cons]
    by_cases hp : p a = true
    · rw [if_pos hp, List.filter_cons, List.filter_cons, ih']
    · have hq : q a = false := by
        cases hqa : q a
        · rfl
        · exact absurd (h a (List.mem_cons_self a rest) hqa) hp
      rw [if_neg hp, List.filter_cons, if_neg (by simp [hq]), ih']

/-- Deleting a dataset metadata record's authors preserves the feature-model
author rows, provided each author has a single owner. -/
theorem filter_delete_preserves_fm (l : List AuthorRow) (mid : Nat)
    (hex : l.all (fun a => a.ds_meta_data_id.isNone || a.fm_meta_data_id.isNone) = true) :
    ((l.filter (fun a => a.ds_meta_data_id ≠ some mid)).filter
        (fun a => a.fm_meta_data_id.isSome)) =
      l.filter (fun a => a.fm_meta_data_id.isSome) := by
  apply filter_filter_of_imp
  intro a ha hq
  rw [List.all_eq_true] at hex
  have hone := hex a ha
  rcases hds : a.ds_meta_data_id with _ | m
  · simp
  · exfalso
    rw [hds] at hone
    simp at hone
    rw [hone] at hq
    simp at hq

/-! ## Lemmas about updateSteps -/

/-- After `updateSteps`, the author rows owned by the updated metadata record
are exactly the freshly resolved list. -/
theorem updateSteps_dsAuthorsOf (form : DataSetForm) (u : User) (mid : Nat) (db : DB) :
    (updateSteps form u mid db).dsAuthorsOf mid =
      resolve_author_list form (main_author u) := by
  unfold updateSteps DB.dsAuthorsOf
  rw [addAuthors_authors, List.filter_append, List.map_append]
  have h1 : ((db.updateDSMetaData mid form.get_dsmetadata).deleteAuthorsByDSMetaDataId
      mid).authors = db.authors.filter (fun a => a.ds_meta_data_id ≠ some mid) := rfl
  rw [h1, filter_ne_filter_eq, authorRows_filter_ds_eq, authorRows_map_data]
  rfl

/-- `updateSteps` leaves the feature-model table untouched. -/
theorem updateSteps_feature_models (form : DataSetForm) (u : User) (mid : Nat) (db : DB) :
    (updateSteps form u mid db).feature_models = db.feature_models := by
  unfold updateSteps
  rw [addAuthors_feature_models]
  rfl

/-- `updateSteps` leaves the feature-model metadata table untouched. -/
theorem updateSteps_fmmetadatas (form : DataSetForm) (u : User) (mid : Nat) (db : DB) :
    (updateSteps form u mid db).fmmetadatas = db.fmmetadatas := by
  unfold updateSteps
  rw [addAuthors_fmmetadatas]
  rfl

/-- `updateSteps` leaves the file table untouched. -/
theorem updateSteps_files (form : DataSetForm) (u : User) (mid : Nat) (db : DB) :
    (updateSteps form u mid db).files = db.files := by
  unfold updateSteps
  rw [addAuthors_files]
  rfl

/-- `updateSteps` leaves the dataset table untouched. -/
theorem updateSteps_datasets (form : DataSetForm) (u : User) (mid : Nat) (db : DB) :
    (updateSteps form u mid db).datasets = db.datasets := by
  unfold updateSteps
  rw [addAuthors_datasets]
  rfl

/-- `updateSteps` preserves the feature-model-level author rows when every
author has a single owner. -/
theorem updateSteps_fm_authors (form : DataSetForm) (u : User) (mid : Nat) (db : DB)
    (hex : db.ownersExclusive = true) :
    (updateSteps form u mid db).authors.filter (fun a => a.fm_meta_data_id.isSome) =
      db.authors.filter (fun a => a.fm_meta_data_id.isSome) := by
  unfold updateSteps
  rw [addAuthors_authors, List.filter_append, authorRows_filter_fm_isSome,
    List.append_nil]
  exact filter_delete_preserves_fm db.authors mid hex

/-! ## C3 — update replaces the author list -/

/-- C3: `update_from_form` replaces rather than merges: after one call the
author rows owned by the dataset's metadata are exactly that call's resolved
list, and after two successive calls only the second call's resolved list is
persisted, matching it exactly in count and content. -/
theorem update_from_form_replaces_authors (f1 f2 : DataSetForm) (u1 u2 : User)
    (d : DataSetRow) (s : Session) :
    ((update_from_form f1 u1 d s).2.committed.dsAuthorsOf d.ds_meta_data_id =
      resolve_author_list f1 (main_author u1)) ∧
    ((update_from_form f2 u2 d (update_from_form f1 u1 d s).2).2.committed.dsAuthorsOf
        d.ds_meta_data_id = resolve_author_list f2 (main_author u2)) ∧
    (((update_from_form f2 u2 d (update_from_form f1 u1 d s).2).2.committed.dsAuthorsOf
        d.ds_meta_data_id).length =
      (resolve_author_list f2 (main_author u2)).length) := by
  refine ⟨?_, ?_, ?_⟩
  · exact updateSteps_dsAuthorsOf f1 u1 d.ds_meta_data_id s.pending
  · exact updateSteps_dsAuthorsOf f2 u2 d.ds_meta_data_id _
  · have h2 : (update_from_form f2 u2 d
        (update_from_form f1 u1 d s).2).2.committed.dsAuthorsOf d.ds_meta_data_id =
          resolve_author_list f2 (main_author u2) :=
      updateSteps_dsAuthorsOf f2 u2 d.ds_meta_data_id _
    rw [h2]

/-! ## C8 — update does not alter feature models -/

/-- C8: `update_from_form` never alters the dataset's feature models: starting
from a clean session whose authors each have a single owner, the feature-model
rows, their metadata rows, their file rows and the feature-model-level author
rows visible after the call are identical to those visible before it; the
dataset table is untouched as well. -/
theorem update_from_form_preserves_feature_models (form : DataSetForm) (u : User)
    (d : DataSetRow) (s : Session)
    (hclean : s.pending = s.committed)
    (hex : s.pending.ownersExclusive = true) :
    ((update_from_form form u d s).2.committed.feature_models =
      s.committed.feature_models) ∧
    ((update_from_form form u d s).2.committed.fmmetadatas =
      s.committed.fmmetadatas) ∧
    ((update_from_form form u d s).2.committed.files = s.committed.files) ∧
    ((update_from_form form u d s).2.committed.datasets = s.committed.datasets) ∧
    ((update_from_form form u d s).2.committed.authors.filter
        (fun a => a.fm_meta_data_id.isSome) =
      s.committed.authors.filter (fun a => a.fm_meta_data_id.isSome)) := by
  have hc : (update_from_form form u d s).2.committed =
      updateSteps form u d.ds_meta_data_id s.pending := rfl
  rw [hc, ← hclean]
  exact ⟨updateSteps_feature_models form u d.ds_meta_data_id s.pending,
    updateSteps_fmmetadatas form u d.ds_meta_data_id s.pending,
    updateSteps_files form u d.ds_meta_data_id s.pending,
    updateSteps_datasets form u d.ds_meta_data_id s.pending,
    updateSteps_fm_authors form u d.ds_meta_data_id s.pending hex⟩

/-- Witness for C8 on a concrete store holding a feature model with metadata,
a file and a feature-model author. -/
theorem update_from_form_preserves_feature_models_witness :
    ((update_from_form sampleFormAuthors sampleUser
        { id := 1, user_id := 7, ds_meta_data_id := 0 } sampleRichSession).2.committed.feature_models =
      sampleRichDB.feature_models) ∧
    ((update_from_form sampleFormAuthors sampleUser
        { id := 1, user_id := 7, ds_meta_data_id := 0 } sampleRichSession).2.committed.authors.filter
        (fun a => a.fm_meta_data_id.isSome) =
      sampleRichDB.authors.filter (fun a => a.fm_meta_data_id.isSome)) := by
  have h := update_from_form_preserves_feature_models sampleFormAuthors sampleUser
    { id := 1, user_id := 7, ds_meta_data_id := 0 } sampleRichSession rfl (by decide)
  exact ⟨h.1, h.2.2.2.2⟩

/-! ## Shape of a successful creation run -/

/-- A successful `createFMs` run appends exactly the expected metadata,
author, feature-model and file rows and advances the allocator by the total
weight of the entries. -/
theorem createFMs_shape (u : User) (fs : FS) (did : Nat)
    (entries : List FeatureModelFormEntry) (db db' : DB)
    (h : createFMs u fs did entries db = Except.ok db') :
    db' = { dsmetadatas := db.dsmetadatas,
            authors := db.authors ++ fmAuthorRowsFrom entries db.next_id,
            datasets := db.datasets,
            fmmetadatas := db.fmmetadatas ++ fmMetaRowsFrom entries db.next_id,
            feature_models := db.feature_models ++ fmRowsFrom did entries db.next_id,
            files := db.files ++ fileRowsFrom u fs entries db.next_id,
            next_id := db.next_id + entriesWeight entries } := by
  induction entries generalizing db with
  | nil =>
    unfold createFMs at h
    injection h with h'
    subst h'
    simp [fmAuthorRowsFrom, fmMetaRowsFrom, fmRowsFrom, fileRowsFrom, entriesWeight]
  | cons e rest ih =>
    unfold createFMs at h
    cases hfs : fs (u.temp_folder ++ [e.uvl_filename]) with
    | none =>
      rw [show calculate_checksum_and_size fs (u.temp_folder ++ [e.uvl_filename]) =
          Except.error "FileNotFoundError" by
        simp [calculate_checksum_and_size, hfs]] at h
      simp at h
    | some content =>
      rw [show calculate_checksum_and_size fs (u.temp_folder ++ [e.uvl_filename]) =
          Except.ok (md5_hexdigest content, content.length) by
        simp [calculate_checksum_and_size, hfs]] at h
      have hstep := ih _ h
      rw [hstep]
      simp only [DB.createFMMetaData, DB.createFeatureModel, DB.createFile,
        addAuthors_authors, addAuthors_dsmetadatas, addAuthors_datasets,
        addAuthors_fmmetadatas, addAuthors_feature_models, addAuthors_files,
        addAuthors_next_id]
      simp only [fmAuthorRowsFrom, fmMetaRowsFrom, fmRowsFrom, fileRowsFrom,
        entriesWeight, entryWeight, hfs]
      refine DB.mk.injEq .. ▸ ?_
      simp [List.append_assoc]
      have harith : db.next_id + 1 + e.authors.length + 1 + 1 =
          db.next_id + (3 + e.authors.length) := by omega
      exact ⟨by rw [harith], by rw [harith], by rw [harith],
        ⟨by omega, by rw [harith]⟩, by omega⟩

/-- A successful `createSteps` run returns the freshly created dataset id and
a state extended with exactly the metadata row, the resolved dataset-level
author rows, the dataset row, and the feature-model rows of each entry. -/
theorem createSteps_shape (form : DataSetForm) (u : User) (fs : FS) (db : DB)
    (did : Nat) (db' : DB)
    (h : createSteps form u fs db = Except.ok (did, db')) :
    did = db.next_id + 1 + (resolve_author_list form (main_author u)).length ∧
    db' = { dsmetadatas := db.dsmetadatas ++
              [{ id := db.next_id, fields := form.get_dsmetadata }],
            authors := db.authors ++
              authorRows (some db.next_id) none
                (resolve_author_list form (main_author u)) (db.next_id + 1) ++
              fmAuthorRowsFrom form.feature_models (did + 1),
            datasets := db.datasets ++
              [{ id := did, user_id := u.id, ds_meta_data_id := db.next_id }],
            fmmetadatas := db.fmmetadatas ++ fmMetaRowsFrom form.feature_models (did + 1),
            feature_models := db.feature_models ++
              fmRowsFrom did form.feature_models (did + 1),
            files := db.files ++ fileRowsFrom u fs form.feature_models (did + 1),
            next_id := did + 1 + entriesWeight form.feature_models } := by
  simp only [createSteps, DB.createDSMetaData, DB.createDataSet,
    addAuthors_next_id] at h
  split at h
  · simp at h
  · rename_i db4 heq
    rw [Except.ok.injEq, Prod.mk.injEq] at h
    obtain ⟨hdid, hdb⟩ := h
    have hshape := createFMs_shape _ _ _ _ _ _ heq
    subst hdb
    rw [hshape]
    simp only [DB.createDataSet, DB.createDSMetaData, addAuthors_authors,
      addAuthors_dsmetadatas, addAuthors_datasets, addAuthors_fmmetadatas,
      addAuthors_feature_models, addAuthors_files, addAuthors_next_id] at hdid ⊢
    subst hdid
    simp [List.append_assoc]

/-! ## Consequences of well-formedness -/

/-- In a well-formed store no author row references a yet-unallocated
metadata id. -/
theorem wf_authors_ds_filter_nil (db : DB) (hwf : db.wf = true) (mid : Nat)
    (hmid : db.next_id ≤ mid) :
    db.authors.filter (fun a => a.ds_meta_data_id = some mid) = [] := by
  rw [List.filter_eq_nil_iff]
  intro a ha
  simp only [DB.wf, Bool.and_eq_true, List.all_eq_true] at hwf
  obtain ⟨⟨⟨⟨⟨-, hau⟩, -⟩, -⟩, -⟩, -⟩ := hwf
  have hrow := hau a ha
  simp only [Bool.and_eq_true] at hrow
  have hds := hrow.1.2
  simp only [decide_eq_true_eq]
  intro hcontra
  rw [hcontra] at hds
  simp only [optLtNext, decide_eq_true_eq] at hds
  omega

/-- In a well-formed store every dataset row has an already-allocated id. -/
theorem wf_datasets_id_lt (db : DB) (hwf : db.wf = true) :
    ∀ r ∈ db.datasets, r.id < db.next_id := by
  intro r hr
  simp only [DB.wf, Bool.and_eq_true, List.all_eq_true] at hwf
  obtain ⟨⟨⟨⟨⟨-, -⟩, hdat⟩, -⟩, -⟩, -⟩ := hwf
  have hrow := hdat r hr
  simp only [Bool.and_eq_true, decide_eq_true_eq] at hrow
  exact hrow.1

/-- `find?` skips a prefix on which the predicate is everywhere false. -/
theorem find?_append_of_none {α : Type} (p : α → Bool) (l1 l2 : List α)
    (h : ∀ x ∈ l1, p x = false) : (l1 ++ l2).find? p = l2.find? p := by
  induction l1 with
  | nil => rfl
  | cons a rest ih =>
    have ha : ¬ (p a = true) := by simp [h a (List.mem_cons_self a rest)]
    rw [List.cons_append, List.find?_cons_of_neg _ ha,
      ih (fun x hx => h x (List.mem_cons_of_mem a hx))]

/-- Looking a freshly created dataset row up by its id finds it. -/
theorem wf_datasets_find (db : DB) (hwf : db.wf = true) (row : DataSetRow)
    (hge : db.next_id ≤ row.id) :
    (db.datasets ++ [row]).find? (fun r => r.id = row.id) = some row := by
  rw [find?_append_of_none]
  · simp [List.find?]
  · intro x hx
    have := wf_datasets_id_lt db hwf x hx
    simp only [decide_eq_false_iff_not]
    omega

/-- Feature-model-level author rows never reference a dataset metadata id. -/
theorem fmAuthorRowsFrom_filter_ds (entries : List FeatureModelFormEntry)
    (n mid : Nat) :
    (fmAuthorRowsFrom entries n).filter (fun a => a.ds_meta_data_id = some mid) = [] := by
  induction entries generalizing n with
  | nil => rfl
  | cons e rest ih =>
    simp only [fmAuthorRowsFrom, List.filter_append, ih]
    rw [authorRows_filter_ds_ne]
    · rfl
    · simp

/-! ## C2 — author resolution -/

/-- C2: the persisted author list for a submission is resolved the same way
in `create_from_form` and `update_from_form`: with `anonymous=true` it is
exactly the form's anonymous-author list (the submitter's identity never
enters); otherwise the form's explicit co-author list when non-empty;
otherwise the single author derived from the current user's profile, with
name composed as "Surname, Name" plus affiliation and ORCID.  For creation
the resolved rows hang off the freshly created metadata record of the
returned dataset row. -/
theorem author_resolution_rule (form : DataSetForm) (u : User) (fs : FS)
    (s : Session) (did : Nat) (d : DataSetRow) (s2 : Session)
    (hwf : s.pending.wf = true)
    (h : (create_from_form form u fs s).1 = Except.ok did) :
    ((create_from_form form u fs s).2.committed.datasets.find?
        (fun r => r.id = did) =
      some { id := did, user_id := u.id, ds_meta_data_id := s.pending.next_id }) ∧
    ((create_from_form form u fs s).2.committed.dsAuthorsOf s.pending.next_id =
      resolve_author_list form (main_author u)) ∧
    ((update_from_form form u d s2).2.committed.dsAuthorsOf d.ds_meta_data_id =
      resolve_author_list form (main_author u)) ∧
    (form.dataset_anonymous = true →
      resolve_author_list form (main_author u) = form.anonymous_authors) ∧
    (form.dataset_anonymous = false → form.authors ≠ [] →
      resolve_author_list form (main_author u) = form.authors) ∧
    (form.dataset_anonymous = false → form.authors = [] →
      resolve_author_list form (main_author u) =
        [{ name := u.profile.surname ++ ", " ++ u.profile.name,
           affiliation := u.profile.affiliation,
           orcid := u.profile.orcid }]) := by
  cases hc : createSteps form u fs s.pending with
  | error e =>
    have herr : (create_from_form form u fs s).1 = Except.error e := by
      simp [create_from_form, hc]
    rw [herr] at h
    simp at h
  | ok r =>
    obtain ⟨did2, db'⟩ := r
    have h1 : (create_from_form form u fs s).1 = Except.ok did2 := by
      simp [create_from_form, hc]
    rw [h1] at h
    injection h with hdid2
    subst hdid2
    have hcomm : (create_from_form form u fs s).2.committed = db' := by
      simp [create_from_form, hc]
    obtain ⟨hdid, hdb⟩ := createSteps_shape form u fs s.pending did2 db' hc
    refine ⟨?_, ?_, ?_, ?_, ?_, ?_⟩
    · rw [hcomm, hdb]
      exact wf_datasets_find s.pending hwf
        { id := did2, user_id := u.id, ds_meta_data_id := s.pending.next_id }
        (by show s.pending.next_id ≤ did2; omega)
    · rw [hcomm, hdb]
      simp only [DB.dsAuthorsOf, List.filter_append,
        wf_authors_ds_filter_nil s.pending hwf s.pending.next_id (Nat.le_refl _),
        authorRows_filter_ds_eq, fmAuthorRowsFrom_filter_ds, List.map_append,
        authorRows_map_data]
      simp
    · exact updateSteps_dsAuthorsOf form u d.ds_meta_data_id s2.pending
    · intro ha
      simp [resolve_author_list, ha]
    · intro ha hne
      simp [resolve_author_list, ha, hne]
    · intro ha hemp
      simp [resolve_author_list, ha, hemp, main_author]

/-- Witness for C2: a non-anonymous submission with no co-authors persists
exactly the submitter-derived author, both at creation and at update. -/
theorem author_resolution_rule_witness :
    ((create_from_form sampleForm sampleUser sampleFS emptySession).2.committed.dsAuthorsOf
        0 = [main_author sampleUser]) ∧
    ((update_from_form sampleForm sampleUser
        { id := 1, user_id := 7, ds_meta_data_id := 0 }
        sampleRichSession).2.committed.dsAuthorsOf 0 = [main_author sampleUser]) := by
  have h := author_resolution_rule sampleForm sampleUser sampleFS emptySession 2
    { id := 1, user_id := 7, ds_meta_data_id := 0 } sampleRichSession (by decide) rfl
  exact ⟨h.2.1.trans (by decide), h.2.2.1.trans (by decide)⟩

/-! ## Lemmas for the round-trip -/

/-- Rows created by `authorRows` carry exactly the given foreign keys. -/
theorem authorRows_mem_refs (dsRef fmRef : Option Nat) (l : List AuthorData) (n : Nat) :
    ∀ a ∈ authorRows dsRef fmRef l n,
      a.ds_meta_data_id = dsRef ∧ a.fm_meta_data_id = fmRef := by
  induction l generalizing n with
  | nil => intro a ha; cases ha
  | cons x rest ih =>
    intro a ha
    rw [authorRows] at ha
    rcases List.mem_cons.mp ha with rfl | ha2
    · exact ⟨rfl, rfl⟩
    · exact ih (n + 1) a ha2

/-- A list whose feature-model references are all below `m` contributes
nothing to the author list of metadata record `m`. -/
theorem filter_fm_nil_of_lt (l : List AuthorRow) (m : Nat)
    (h : ∀ a ∈ l, ∀ k, a.fm_meta_data_id = some k → k < m) :
    l.filter (fun a => a.fm_meta_data_id = some m) = [] := by
  rw [List.filter_eq_nil_iff]
  intro a ha
  simp only [decide_eq_true_eq]
  intro hcontra
  have := h a ha m hcontra
  omega

/-- Author rows of later feature-model entries never reference an earlier
metadata record. -/
theorem fmAuthorRowsFrom_filter_fm_lt (entries : List FeatureModelFormEntry)
    (n mid : Nat) (h : mid < n) :
    (fmAuthorRowsFrom entries n).filter (fun a => a.fm_meta_data_id = some mid) = [] := by
  induction entries generalizing n with
  | nil => rfl
  | cons e rest ih =>
    simp only [fmAuthorRowsFrom, List.filter_append]
    rw [authorRows_filter_fm_ne _ _ _ _ _ (by simp; omega),
      ih (n + entryWeight e) (by unfold entryWeight; omega)]
    rfl

/-- All feature-model rows created for a dataset pass its owner filter. -/
theorem fmRowsFrom_filter_self (did : Nat) (entries : List FeatureModelFormEntry)
    (n : Nat) :
    (fmRowsFrom did entries n).filter (fun fm => fm.data_set_id = did) =
      fmRowsFrom did entries n := by
  induction entries generalizing n with
  | nil => rfl
  | cons e rest ih => simp [fmRowsFrom, ih]

/-- In a well-formed store every dataset metadata row id is allocated. -/
theorem wf_dsmetadatas_id_lt (db : DB) (hwf : db.wf = true) :
    ∀ r ∈ db.dsmetadatas, r.id < db.next_id := by
  intro r hr
  simp only [DB.wf, Bool.and_eq_true, List.all_eq_true] at hwf
  obtain ⟨⟨⟨⟨⟨hds, -⟩, -⟩, -⟩, -⟩, -⟩ := hwf
  simpa using hds r hr

/-- In a well-formed store every feature-model metadata row id is allocated. -/
theorem wf_fmmetadatas_id_lt (db : DB) (hwf : db.wf = true) :
    ∀ r ∈ db.fmmetadatas, r.id < db.next_id := by
  intro r hr
  simp only [DB.wf, Bool.and_eq_true, List.all_eq_true] at hwf
  obtain ⟨⟨⟨⟨⟨-, -⟩, -⟩, hfmm⟩, -⟩, -⟩ := hwf
  simpa using hfmm r hr

/-- In a well-formed store every feature model references an allocated
dataset. -/
theorem wf_feature_models_ds_lt (db : DB) (hwf : db.wf = true) :
    ∀ f ∈ db.feature_models, f.data_set_id < db.next_id := by
  intro f hf
  simp only [DB.wf, Bool.and_eq_true, List.all_eq_true] at hwf
  obtain ⟨⟨⟨⟨⟨-, -⟩, -⟩, -⟩, hfm⟩, -⟩ := hwf
  have := hfm f hf
  simp only [Bool.and_eq_true, decide_eq_true_eq] at this
  exact this.1.2

/-- In a well-formed store every author's feature-model reference is an
allocated id. -/
theorem wf_authors_fm_lt (db : DB) (hwf : db.wf = true) :
    ∀ a ∈ db.authors, ∀ k, a.fm_meta_data_id = some k → k < db.next_id := by
  intro a ha k hk
  simp only [DB.wf, Bool.and_eq_true, List.all_eq_true] at hwf
  obtain ⟨⟨⟨⟨⟨-, hau⟩, -⟩, -⟩, -⟩, -⟩ := hwf
  have hrow := hau a ha
  simp only [Bool.and_eq_true] at hrow
  have := hrow.2
  rw [hk] at this
  simpa [optLtNext] using this

/-- Finding a freshly created feature-model metadata row by its id. -/
theorem find?_fmmeta_head (pre : List FMMetaDataRow) (m : Nat)
    (fields : FMMetaDataFields) (tail : List FMMetaDataRow)
    (hpre : ∀ r ∈ pre, r.id < m) :
    ((pre ++ ({ id := m, fields := fields } :: tail)).find? (fun r => r.id = m)) =
      some { id := m, fields := fields } := by
  rw [find?_append_of_none]
  · simp [List.find?]
  · intro x hx
    have := hpre x hx
    simp only [decide_eq_false_iff_not]
    omega

/-- Finding a freshly created dataset metadata row by its id. -/
theorem find?_dsmeta_head (pre : List DSMetaDataRow) (m : Nat)
    (fields : DSMetaDataFields) (hpre : ∀ r ∈ pre, r.id < m) :
    ((pre ++ [({ id := m, fields := fields } : DSMetaDataRow)]).find?
        (fun r => r.id = m)) =
      some { id := m, fields := fields } := by
  rw [find?_append_of_none]
  · simp [List.find?]
  · intro x hx
    have := hpre x hx
    simp only [decide_eq_false_iff_not]
    omega

/-- Rebuilding the created feature-model rows through `populateFM` recovers
exactly the submitted entries, in order: the store's metadata table is the
created blocks after a prefix of older ids, and the author table likewise. -/
theorem populate_fmRows (db' : DB) (did : Nat) :
    ∀ (entries : List FeatureModelFormEntry) (m : Nat)
      (pre : List FMMetaDataRow) (preA : List AuthorRow),
      db'.fmmetadatas = pre ++ fmMetaRowsFrom entries m →
      (∀ r ∈ pre, r.id < m) →
      db'.authors = preA ++ fmAuthorRowsFrom entries m →
      (∀ a ∈ preA, ∀ k, a.fm_meta_data_id = some k → k < m) →
      (fmRowsFrom did entries m).mapM (populateFM db') = some entries := by
  intro entries
  induction entries with
  | nil => intro m pre preA _ _ _ _; rfl
  | cons e rest ih =>
    intro m pre preA hmeta hpre hauth hpreA
    have hfind : db'.fmmetadatas.find? (fun r => r.id = m) =
        some { id := m, fields := e.get_fmmetadata } := by
      rw [hmeta, fmMetaRowsFrom]
      exact find?_fmmeta_head pre m e.get_fmmetadata _ hpre
    have hfm : db'.fmAuthorsOf m = e.authors := by
      unfold DB.fmAuthorsOf
      rw [hauth, fmAuthorRowsFrom, List.filter_append, List.filter_append]
      rw [filter_fm_nil_of_lt preA m hpreA, authorRows_filter_fm_eq,
        fmAuthorRowsFrom_filter_fm_lt rest (m + entryWeight e) m
          (by unfold entryWeight; omega)]
      simp [authorRows_map_data]
    have hpop : populateFM db'
        { id := m + 1 + e.authors.length, data_set_id := did, fm_meta_data_id := m } =
        some e := by
      unfold populateFM
      rw [hfind]
      simp only [Option.map, hfm, FeatureModelFormEntry.get_fmmetadata]
    have hrec : (fmRowsFrom did rest (m + entryWeight e)).mapM (populateFM db') =
        some rest := by
      apply ih (m + entryWeight e) (pre ++ [{ id := m, fields := e.get_fmmetadata }])
        (preA ++ authorRows none (some m) e.authors (m + 1))
      · rw [hmeta, fmMetaRowsFrom, List.append_cons]
      · intro r hr
        rcases List.mem_append.mp hr with h1 | h1
        · have := hpre r h1
          unfold entryWeight
          omega
        · rcases List.mem_singleton.mp h1 with rfl
          show m < m + entryWeight e
          unfold entryWeight
          omega
      · rw [hauth, fmAuthorRowsFrom, List.append_assoc]
      · intro a ha k hk
        rcases List.mem_append.mp ha with h1 | h1
        · have := hpreA a h1 k hk
          unfold entryWeight
          omega
        · have := (authorRows_mem_refs none (some m) e.authors (m + 1) a h1).2
          rw [this] at hk
          injection hk with hk2
          unfold entryWeight
          omega
    rw [fmRowsFrom, List.mapM_cons, hpop, hrec]
    rfl

/-! ## C5 — form/dataset round-trip -/

/-- C5 (amended): populating a form from the dataset just created from
`form0` reproduces every dataset-level metadata field (title, description,
publication type and DOI, dataset DOI, tags, anonymity flag) and every
feature-model entry of `form0` — filename, title, description, publication
fields, version and authors, in submission order.  The form's author entries,
however, are repopulated with the resolved author list, which coincides with
`form0`'s explicit author-list field exactly when the submission is
non-anonymous and that list is non-empty. -/
theorem populate_roundtrip_resolved (form0 fprev : DataSetForm) (u : User)
    (fs : FS) (s : Session) (did : Nat)
    (hwf : s.pending.wf = true)
    (h : (create_from_form form0 u fs s).1 = Except.ok did) :
    ∃ d f,
      ((create_from_form form0 u fs s).2.committed.datasets.find?
        (fun r => r.id = did) = some d) ∧
      (populate_form_from_dataset fprev
        (create_from_form form0 u fs s).2.committed d = some f) ∧
      f.title = form0.title ∧ f.desc = form0.desc ∧
      f.publication_type = form0.publication_type ∧
      f.publication_doi = form0.publication_doi ∧
      f.dataset_doi = form0.dataset_doi ∧ f.tags = form0.tags ∧
      f.dataset_anonymous = form0.dataset_anonymous ∧
      f.feature_models = form0.feature_models ∧
      f.authors = resolve_author_list form0 (main_author u) ∧
      (form0.dataset_anonymous = false → form0.authors ≠ [] →
        f.authors = form0.authors) := by
  cases hc : createSteps form0 u fs s.pending with
  | error e =>
    have herr : (create_from_form form0 u fs s).1 = Except.error e := by
      simp [create_from_form, hc]
    rw [herr] at h
    simp at h
  | ok r =>
    obtain ⟨did2, db'⟩ := r
    have h1 : (create_from_form form0 u fs s).1 = Except.ok did2 := by
      simp [create_from_form, hc]
    rw [h1] at h
    injection h with hdid2
    subst hdid2
    have hcomm : (create_from_form form0 u fs s).2.committed = db' := by
      simp [create_from_form, hc]
    obtain ⟨hdid, hdb⟩ := createSteps_shape form0 u fs s.pending did2 db' hc
    have hmeta2 : db'.dsMetaOf
        { id := did2, user_id := u.id, ds_meta_data_id := s.pending.next_id } =
        some { id := s.pending.next_id, fields := form0.get_dsmetadata } := by
      unfold DB.dsMetaOf
      rw [hdb]
      exact find?_dsmeta_head s.pending.dsmetadatas s.pending.next_id
        form0.get_dsmetadata (wf_dsmetadatas_id_lt s.pending hwf)
    have hfms2 : db'.feature_models.filter (fun fm => fm.data_set_id = did2) =
        fmRowsFrom did2 form0.feature_models (did2 + 1) := by
      rw [hdb]
      show (s.pending.feature_models ++
        fmRowsFrom did2 form0.feature_models (did2 + 1)).filter
          (fun fm => fm.data_set_id = did2) = _
      rw [List.filter_append, fmRowsFrom_filter_self]
      have hold : s.pending.feature_models.filter
          (fun fm => fm.data_set_id = did2) = [] := by
        rw [List.filter_eq_nil_iff]
        intro f hf
        have := wf_feature_models_ds_lt s.pending hwf f hf
        simp only [decide_eq_true_eq]
        omega
      rw [hold]
      rfl
    have hmapM : (fmRowsFrom did2 form0.feature_models (did2 + 1)).mapM
        (populateFM db') = some form0.feature_models := by
      apply populate_fmRows db' did2 form0.feature_models (did2 + 1)
        s.pending.fmmetadatas
        (s.pending.authors ++ authorRows (some s.pending.next_id) none
          (resolve_author_list form0 (main_author u)) (s.pending.next_id + 1))
      · rw [hdb]
      · intro r hr
        have := wf_fmmetadatas_id_lt s.pending hwf r hr
        omega
      · rw [hdb]
      · intro a ha k hk
        rcases List.mem_append.mp ha with h1 | h1
        · have := wf_authors_fm_lt s.pending hwf a h1 k hk
          omega
        · have := (authorRows_mem_refs (some s.pending.next_id) none
            (resolve_author_list form0 (main_author u))
            (s.pending.next_id + 1) a h1).2
          rw [this] at hk
          cases hk
    have hdsa : db'.dsAuthorsOf s.pending.next_id =
        resolve_author_list form0 (main_author u) := by
      rw [hdb]
      simp only [DB.dsAuthorsOf, List.filter_append,
        wf_authors_ds_filter_nil s.pending hwf s.pending.next_id (Nat.le_refl _),
        authorRows_filter_ds_eq, fmAuthorRowsFrom_filter_ds, List.map_append,
        authorRows_map_data]
      simp
    refine ⟨{ id := did2, user_id := u.id, ds_meta_data_id := s.pending.next_id },
      { fprev with
          title := form0.title,
          desc := form0.desc,
          publication_type := form0.publication_type,
          publication_doi := form0.publication_doi,
          dataset_doi := form0.dataset_doi,
          tags := form0.tags,
          dataset_anonymous := form0.dataset_anonymous,
          authors := resolve_author_list form0 (main_author u),
          feature_models := form0.feature_models },
      ?_, ?_, rfl, rfl, rfl, rfl, rfl, rfl, rfl, rfl, rfl, ?_⟩
    · rw [hcomm, hdb]
      exact wf_datasets_find s.pending hwf
        { id := did2, user_id := u.id, ds_meta_data_id := s.pending.next_id }
        (by show s.pending.next_id ≤ did2; omega)
    · rw [hcomm]
      unfold populate_form_from_dataset
      rw [hmeta2]
      show ((db'.feature_models.filter (fun fm => fm.data_set_id = did2)).mapM
          (populateFM db')).bind _ = _
      rw [hfms2, hmapM]
      show some _ = some _
      rw [Option.some.injEq]
      have hfields : DataSetForm.get_dsmetadata form0 =
          { title := form0.title, description := form0.desc,
            publication_type := form0.publication_type,
            publication_doi := form0.publication_doi,
            dataset_doi := form0.dataset_doi, tags := form0.tags,
            dataset_anonymous := form0.dataset_anonymous } := rfl
      simp only [hfields, hdsa]
    · intro ha hne
      simp [resolve_author_list, ha, hne]

/-- Counterexample for C5 as stated: a non-anonymous submission with an empty
explicit co-author list does not round-trip — the repopulated form carries the
resolved submitter-derived author where the original form had none. -/
theorem populate_not_exact_inverse :
    ((populate_form_from_dataset sampleForm
        (create_from_form sampleForm sampleUser sampleFS emptySession).2.committed
        { id := 2, user_id := 7, ds_meta_data_id := 0 }).map (fun f => f.authors) =
      some [main_author sampleUser]) ∧
    [main_author sampleUser] ≠ sampleForm.authors := by
  exact ⟨by decide, by decide⟩

/-- Witness for C5: a submission with two explicit co-authors and one feature
model round-trips through creation and repopulation, authors included. -/
theorem populate_roundtrip_resolved_witness :
    ∃ d f,
      ((create_from_form sampleFormAuthors sampleUser sampleFS
          emptySession).2.committed.datasets.find? (fun r => r.id = 3) = some d) ∧
      (populate_form_from_dataset sampleForm
        (create_from_form sampleFormAuthors sampleUser sampleFS
          emptySession).2.committed d = some f) ∧
      f.feature_models = sampleFormAuthors.feature_models ∧
      f.authors = sampleFormAuthors.authors := by
  obtain ⟨d, f, h1, h2, h3⟩ := populate_roundtrip_resolved sampleFormAuthors
    sampleForm sampleUser sampleFS emptySession 3 (by decide) rfl
  exact ⟨d, f, h1, h2, h3.2.2.2.2.2.2.2.1,
    h3.2.2.2.2.2.2.2.2.2 rfl (by decide)⟩

end UvlHub
